import Mathlib

/-!
# Verification of the mrjob single-job core (`mrjob/job.py`)

A shallow embedding of the parts of `MRJob` that drive one phase of a
streaming job in-process:

* the ordered group-by-key used by `_combine_or_reduce_pairs`
  (`itertools.groupby` over the input pair stream),
* the phase executors `map_pairs` / `_combine_or_reduce_pairs` / `run_spark`,
* protocol-role negotiation (`_script_step_mapping`,
  `_mapper_output_protocol`, `_pick_protocol_instances`),
* step-pipeline synthesis (`steps`),
* counter-line formatting (`increment_counter`).

Python exceptions are modelled as values of `MRError`, named after the
error taxonomy of the specification (the source raises `ValueError` /
`TypeError`; the spec names them `ConfigurationError`,
`ArgumentArityError`, `ProtocolResolutionError`).

Python generator functions that may yield some output and then raise are
modelled by `PhaseResult`: the list of pairs yielded before any failure,
plus an optional error.
-/

namespace MrJobSpec

/-- The error taxonomy of the spec (§7), standing for the `ValueError`s and
`TypeError`s raised by `mrjob/job.py`. -/
inductive MRError : Type where
  | configurationError : MRError
  | argumentArityError : MRError
  | protocolResolutionError : MRError
  deriving DecidableEq, Repr

/-- Output of one phase execution: the pairs yielded before completion or
failure, and the error the generator raised, if any. -/
structure PhaseResult (β : Type) : Type where
  out : List β
  err : Option MRError
  deriving DecidableEq, Repr

/-- Python's `gen() or ()` idiom: a hook returning `None` contributes no
pairs. -/
def orEmpty {β : Type} : Option (List β) → List β
  | none => []
  | some l => l

/-- Running an optional zero-argument hook, as in
`if task_init: for k, v in task_init() or (): yield k, v`:
an absent hook contributes nothing, and a hook returning `None`
contributes nothing. -/
def runOptHook {β : Type} : Option (Unit → Option (List β)) → List β
  | none => []
  | some f => orEmpty (f ())

/-! ## Ordered group-by-key (`itertools.groupby` keyed on `k_v[0]`)

`_combine_or_reduce_pairs` iterates
`itertools.groupby(pairs, lambda k_v: k_v[0])`, which partitions the
input into maximal contiguous runs of pairs whose keys are equal, in
input order, without sorting. `runsAux k vs rest` processes `rest` while
the current run has key `k` and accumulated values `vs` (in reverse). -/

def runsAux {κ ν : Type} [DecidableEq κ] (k : κ) (vs : List ν) :
    List (κ × ν) → List (κ × List ν)
  | [] => [(k, vs.reverse)]
  | (k2, v2) :: rest =>
    if k2 = k then runsAux k (v2 :: vs) rest
    else (k, vs.reverse) :: runsAux k2 [v2] rest

/-- The list of `(key, values-of-run)` groups produced by
`itertools.groupby(pairs, lambda k_v: k_v[0])`. -/
def runs {κ ν : Type} [DecidableEq κ] : List (κ × ν) → List (κ × List ν)
  | [] => []
  | (k, v) :: rest => runsAux k [v] rest

/-! ## Combiner/reducer execution (`_combine_or_reduce_pairs`)

The step's three hook slots for one of `combiner` / `reducer`
(`step[mrc]`, `step[mrc + '_init']`, `step[mrc + '_final']`). Each hook
may be absent (`None` in the step), and when called may return `None`
instead of an iterable (hence `Option` on the result). -/

structure RedHooks (κ ν κ₂ ν₂ : Type) : Type where
  body : Option (κ → List ν → Option (List (κ₂ × ν₂)))
  init : Option (Unit → Option (List (κ₂ × ν₂)))
  final : Option (Unit → Option (List (κ₂ × ν₂)))

/-- Embedding of `MRJob._combine_or_reduce_pairs`: if the body hook
(`step[mrc]`) is `None`, raise (`No %s in step %d`, a ConfigurationError
in the spec's taxonomy) before yielding anything; otherwise yield the
init hook's output, then, for each maximal contiguous run of equal-key
pairs, the body's output on `(key, values-of-run)`, then the final
hook's output. -/
def combineOrReducePairs {κ ν κ₂ ν₂ : Type} [DecidableEq κ]
    (h : RedHooks κ ν κ₂ ν₂) (pairs : List (κ × ν)) :
    PhaseResult (κ₂ × ν₂) :=
  match h.body with
  | none => ⟨[], some MRError.configurationError⟩
  | some task =>
    ⟨runOptHook h.init ++
      ((runs pairs).flatMap fun r => orEmpty (task r.1 r.2)) ++
      runOptHook h.final, none⟩

/-! ## Mapper execution (`map_pairs`) -/

/-- The step's mapper hook slots (`step['mapper']`, `step['mapper_raw']`,
`step['mapper_init']`, `step['mapper_final']`). -/
structure MapHooks (κ ν κ₂ ν₂ : Type) : Type where
  body : Option (κ → ν → Option (List (κ₂ × ν₂)))
  raw : Option (String → String → Option (List (κ₂ × ν₂)))
  init : Option (Unit → Option (List (κ₂ × ν₂)))
  final : Option (Unit → Option (List (κ₂ × ν₂)))

/-- Modelled from the spec: what `step['mapper']` yields per input pair
when the slot is absent. The lookup goes through `MRStep` (`mrjob/step.py`,
not part of the sources here); the spec (§4.3) says "Missing hooks
contribute nothing", so an absent body contributes no pairs. -/
def applyMapBody {κ ν κ₂ ν₂ : Type}
    (body : Option (κ → ν → Option (List (κ₂ × ν₂)))) (k : κ) (v : ν) :
    List (κ₂ × ν₂) :=
  match body with
  | none => []
  | some f => orEmpty (f k v)

/-- Embedding of `MRJob.map_pairs`: yield the init hook's output; then,
if a raw hook is present, require exactly two positional arguments
(`if len(self.options.args) != 2: raise`, an ArgumentArityError) and
yield the raw hook's output on them, else yield the body's output on
each input pair in order; finally yield the final hook's output. -/
def map_pairs {κ ν κ₂ ν₂ : Type} (h : MapHooks κ ν κ₂ ν₂)
    (args : List String) (pairs : List (κ × ν)) : PhaseResult (κ₂ × ν₂) :=
  match h.raw with
  | some rawHook =>
    match args with
    | [inputPath, inputUri] =>
      ⟨runOptHook h.init ++ orEmpty (rawHook inputPath inputUri) ++
        runOptHook h.final, none⟩
    | _ => ⟨runOptHook h.init, some MRError.argumentArityError⟩
  | none =>
    ⟨runOptHook h.init ++
      (pairs.flatMap fun kv => applyMapBody h.body kv.1 kv.2) ++
      runOptHook h.final, none⟩

/-! ## Spark (distributed) execution (`run_spark`)

After `_get_step` has located a `SparkStep`, `run_spark` requires exactly
two positional arguments and calls the spark hook on them. -/

/-- Embedding of the argument handling of `MRJob.run_spark` (after step
lookup): `if len(self.options.args) != 2: raise` (ArgumentArityError),
then `spark_method(input_path, output_path)`. -/
def run_spark {α : Type} (spark : String → String → α)
    (args : List String) : Except MRError α :=
  match args with
  | [inputPath, outputPath] => Except.ok (spark inputPath outputPath)
  | _ => Except.error MRError.argumentArityError

/-! ## Step descriptors and the script-step table

`_steps_desc` serialises each step; per phase the description records
`'type': 'script'` (an in-process function) or `'type': 'command'`
(an external command string). A phase may also be absent from a step.
`SparkStep` descriptions have no `mapper`/`reducer` entries. -/

/-- `'script'` vs `'command'` in a step description. -/
inductive PhaseType : Type where
  | script : PhaseType
  | command : PhaseType
  deriving DecidableEq, Repr

/-- The `step_type` strings `'mapper'` / `'combiner'` / `'reducer'`. -/
inductive StepType : Type where
  | mapper : StepType
  | combiner : StepType
  | reducer : StepType
  deriving DecidableEq, Repr

/-- One step's description, as consumed by `_script_step_mapping` and
`_pick_protocol_instances`: which of its phases exist and whether each is
a script phase or an external command. A Spark step carries none. -/
inductive StepDesc : Type where
  | streaming (mapper combiner reducer : Option PhaseType) : StepDesc
  | spark : StepDesc
  deriving DecidableEq, Repr

/-- The table keys built by `_step_key(step_num, step_type)`
(`'%d-%s'`, injective in the pair, so modelled as the pair itself). -/
abbrev StepKey : Type := Nat × StepType

/-- The script mapper/reducer entries one step contributes to
`_script_step_mapping`'s iteration, in its order: the mapper entry (if
the step has a script mapper), then the reducer entry (if the step has a
script reducer). Combiners never contribute; Spark steps contribute
nothing. -/
def stepEntries (i : Nat) : StepDesc → List StepKey
  | StepDesc.streaming m _c r =>
    (if m = some PhaseType.script then [(i, StepType.mapper)] else []) ++
      (if r = some PhaseType.script then [(i, StepType.reducer)] else [])
  | StepDesc.spark => []

/-- All script mapper/reducer phases of the pipeline, in pipeline order
(mapper before reducer within a step). -/
def phaseKeys (steps : List StepDesc) : List StepKey :=
  (steps.enum).flatMap fun p => stepEntries p.1 p.2

/-- Pair each key with the running `script_step_num` counter, starting
at `c`. -/
def scriptStepMappingAux (c : Nat) : List StepKey → List (StepKey × Nat)
  | [] => []
  | k :: ks => (k, c) :: scriptStepMappingAux (c + 1) ks

/-- Embedding of `MRJob._script_step_mapping`: the mapping from step key
to its 0-based place among all script mapper/reducer phases, built by
walking the pipeline with a counter (modelled as an association list;
the Python `dict` has these exact unique keys). -/
def scriptStepMapping (steps : List StepDesc) : List (StepKey × Nat) :=
  scriptStepMappingAux 0 (phaseKeys steps)

/-- Association-list lookup (`step_map[k]` / `k in step_map`). -/
def lookupKey (k : StepKey) : List (StepKey × Nat) → Option Nat
  | [] => none
  | (k2, v) :: rest => if k2 = k then some v else lookupKey k rest

/-- First index of an element in a list (the 0-based position the claim
speaks of). -/
def firstIdx {α : Type} [DecidableEq α] (a : α) : List α → Option Nat
  | [] => none
  | b :: rest => if b = a then some 0 else (firstIdx a rest).map (· + 1)

/-! ## Protocol-role negotiation (`_pick_protocol_instances`) -/

/-- Which protocol instance a resolution returns:
`self.input_protocol()`, `self.internal_protocol()`,
`self.output_protocol()`, or the degenerate `RawValueProtocol()`
pass-through used for combiners of non-script mappers. -/
inductive Proto : Type where
  | input : Proto
  | internal : Proto
  | output : Proto
  | rawValue : Proto
  deriving DecidableEq, Repr

/-- Embedding of `MRJob._mapper_output_protocol`: the write protocol of
`step_num`'s mapper — `output` if its table position is
`>= len(step_map) - 1`, `internal` otherwise, and `RawValueProtocol` when
the mapper is not a script phase (absent from the table). -/
def mapperOutputProtocol (stepNum : Nat) (stepMap : List (StepKey × Nat)) :
    Proto :=
  match lookupKey (stepNum, StepType.mapper) stepMap with
  | some pos =>
    if stepMap.length - 1 ≤ pos then Proto.output else Proto.internal
  | none => Proto.rawValue

/-- Embedding of `MRJob._pick_protocol_instances`, returning the
`(read, write)` protocol pair for a `(step_num, step_type)` request, or
the `ValueError` (`Can't pick a protocol for a non-script step`, the
spec's ProtocolResolutionError) when a mapper/reducer request is not in
the script-step table. A combiner reads and writes its step's mapper's
output protocol. -/
def pickProtocolInstances (steps : List StepDesc) (stepNum : Nat)
    (stepType : StepType) : Except MRError (Proto × Proto) :=
  let stepMap := scriptStepMapping steps
  match stepType with
  | StepType.combiner =>
    let p := mapperOutputProtocol stepNum stepMap
    Except.ok (p, p)
  | _ =>
    match lookupKey (stepNum, stepType) stepMap with
    | none => Except.error MRError.protocolResolutionError
    | some realNum =>
      Except.ok
        ((if realNum = 0 then Proto.input else Proto.internal),
         (if realNum = stepMap.length - 1 then Proto.output
          else Proto.internal))

/-! ## Step-pipeline synthesis (`steps`)

`steps()` collects, into `kwargs`, the hook names among the fixed
registry that the job has re-defined. Modelled from the spec: the
registry `_JOB_STEP_FUNC_PARAMS` lives in `mrjob/step.py` (not among the
sources here); per spec §4.1 it covers the mapper/combiner/reducer body,
init, final, raw, command and pre-filter hook slots, plus the
distributed (`spark`) hook. -/

structure ProvidedHooks : Type where
  mapper : Bool
  mapper_init : Bool
  mapper_final : Bool
  mapper_raw : Bool
  mapper_cmd : Bool
  mapper_pre_filter : Bool
  combiner : Bool
  combiner_init : Bool
  combiner_final : Bool
  combiner_cmd : Bool
  combiner_pre_filter : Bool
  reducer : Bool
  reducer_init : Bool
  reducer_final : Bool
  reducer_cmd : Bool
  reducer_pre_filter : Bool
  spark : Bool
  deriving DecidableEq, Repr

/-- Whether any mapper/combiner/reducer hook is provided, i.e. whether
`kwargs` has a key other than `'spark'`
(`sorted(kwargs) != ['spark']` when `'spark' in kwargs`). -/
def hasStreamingHook (p : ProvidedHooks) : Bool :=
  p.mapper || p.mapper_init || p.mapper_final || p.mapper_raw ||
    p.mapper_cmd || p.mapper_pre_filter ||
    p.combiner || p.combiner_init || p.combiner_final || p.combiner_cmd ||
    p.combiner_pre_filter ||
    p.reducer || p.reducer_init || p.reducer_final || p.reducer_cmd ||
    p.reducer_pre_filter

/-- The kind of step `steps()` emits. -/
inductive StepKind : Type where
  | streamingStep : StepKind
  | sparkStep : StepKind
  deriving DecidableEq, Repr

/-- Embedding of `MRJob.steps`: if the spark hook is provided together
with any streaming hook, raise (`Can't mix spark() and streaming
functions`, the spec's ConfigurationError); if only spark is provided,
emit one Spark step; if any streaming hook is provided, emit one
streaming step; otherwise emit an empty pipeline. -/
def buildSteps (p : ProvidedHooks) : Except MRError (List StepKind) :=
  if p.spark then
    if hasStreamingHook p then Except.error MRError.configurationError
    else Except.ok [StepKind.sparkStep]
  else if hasStreamingHook p then Except.ok [StepKind.streamingStep]
  else Except.ok []

/-- Embedding of `MRJob._get_step`, the gate every `run_*` method passes
through before touching any hook: build the pipeline via `steps()`
(propagating its error), then bounds-check the step index
(`Out-of-range step`, a ConfigurationError in the spec's taxonomy). -/
def getStep (p : ProvidedHooks) (stepNum : Nat) : Except MRError StepKind :=
  match buildSteps p with
  | Except.error e => Except.error e
  | Except.ok steps =>
    if h : stepNum < steps.length then Except.ok (steps.get ⟨stepNum, h⟩)
    else Except.error MRError.configurationError

/-! ## Counter formatting (`increment_counter`) -/

/-- `group.replace(',', ';')` — strings modelled as `List Char`. -/
def replaceCommas (s : List Char) : List Char :=
  s.map fun c => if c = ',' then ';' else c

/-- Embedding of the line built by `MRJob.increment_counter`:
`'reporter:counter:%s,%s,%d\n' % (group, counter, amount)` after commas
in `group` and `counter` have been replaced with semicolons. -/
def increment_counter (group counter : List Char) (amount : Int) :
    List Char :=
  "reporter:counter:".toList ++ replaceCommas group ++ [','] ++
    replaceCommas counter ++ [','] ++ (toString amount).toList ++ ['\n']

/-! ## Statement-side constructions

Used only to state properties; not part of the embedding. -/

/-- Replace, in a hook's behaviour, every `None` result by an empty
yield (`some []`); used to state that the executors treat a hook
returning `None` exactly like one that yields nothing. -/
def withNoneAsEmptyMap {κ ν κ₂ ν₂ : Type} (h : MapHooks κ ν κ₂ ν₂) :
    MapHooks κ ν κ₂ ν₂ where
  body := h.body.map fun f => fun k v => some (orEmpty (f k v))
  raw := h.raw.map fun f => fun p u => some (orEmpty (f p u))
  init := h.init.map fun f => fun u => some (orEmpty (f u))
  final := h.final.map fun f => fun u => some (orEmpty (f u))

/-- Same as `withNoneAsEmptyMap`, for combiner/reducer hook slots. -/
def withNoneAsEmptyRed {κ ν κ₂ ν₂ : Type} (h : RedHooks κ ν κ₂ ν₂) :
    RedHooks κ ν κ₂ ν₂ where
  body := h.body.map fun f => fun k vs => some (orEmpty (f k vs))
  init := h.init.map fun f => fun u => some (orEmpty (f u))
  final := h.final.map fun f => fun u => some (orEmpty (f u))

/-! ## Helper lemmas about hooks -/

theorem orEmpty_some_orEmpty {β : Type} (x : Option (List β)) :
    orEmpty (some (orEmpty x)) = orEmpty x := by
  cases x <;> rfl

theorem runOptHook_withNoneAsEmpty {β : Type}
    (f : Option (Unit → Option (List β))) :
    runOptHook (f.map fun g => fun u => some (orEmpty (g u)))
      = runOptHook f := by
  cases f with
  | none => rfl
  | some g => simp [runOptHook, orEmpty_some_orEmpty]

/-! ## Helper lemmas about the grouping -/

theorem runsAux_flatten {κ ν : Type} [DecidableEq κ]
    (rest : List (κ × ν)) :
    ∀ (k : κ) (vs : List ν),
      ((runsAux k vs rest).flatMap fun r => r.2.map fun v => (r.1, v))
        = (vs.reverse.map fun v => (k, v)) ++ rest := by
  induction rest with
  | nil => intro k vs; simp [runsAux]
  | cons p rest ih =>
    obtain ⟨k2, v2⟩ := p
    intro k vs
    by_cases h : k2 = k
    · rw [runsAux, if_pos h, ih k (v2 :: vs)]
      subst h
      simp
    · simp only [runsAux, if_neg h, List.flatMap_cons, ih k2 [v2],
        List.reverse_cons, List.reverse_nil, List.nil_append,
        List.map_cons, List.map_nil, List.append_assoc, List.cons_append]

theorem runs_flatten {κ ν : Type} [DecidableEq κ] (pairs : List (κ × ν)) :
    ((runs pairs).flatMap fun r => r.2.map fun v => (r.1, v)) = pairs := by
  cases pairs with
  | nil => rfl
  | cons p rest =>
    obtain ⟨k, v⟩ := p
    simpa using runsAux_flatten rest k [v]

theorem runsAux_values_ne_nil {κ ν : Type} [DecidableEq κ]
    (rest : List (κ × ν)) :
    ∀ (k : κ) (vs : List ν), vs ≠ [] →
      ∀ r ∈ runsAux k vs rest, r.2 ≠ [] := by
  induction rest with
  | nil =>
    intro k vs hvs r hr
    simp only [runsAux, List.mem_singleton] at hr
    subst hr
    simpa using hvs
  | cons p rest ih =>
    obtain ⟨k2, v2⟩ := p
    intro k vs hvs r hr
    by_cases h : k2 = k
    · rw [runsAux, if_pos h] at hr
      exact ih k (v2 :: vs) (by simp) r hr
    · rw [runsAux, if_neg h] at hr
      rcases List.mem_cons.mp hr with hr | hr
      · subst hr; simpa using hvs
      · exact ih k2 [v2] (by simp) r hr

theorem runs_values_ne_nil {κ ν : Type} [DecidableEq κ]
    (pairs : List (κ × ν)) : ∀ r ∈ runs pairs, r.2 ≠ [] := by
  cases pairs with
  | nil => intro r hr; simp [runs] at hr
  | cons p rest =>
    obtain ⟨k, v⟩ := p
    exact runsAux_values_ne_nil rest k [v] (by simp)

theorem runsAux_head_key {κ ν : Type} [DecidableEq κ]
    (rest : List (κ × ν)) :
    ∀ (k : κ) (vs : List ν), ∃ ws t, runsAux k vs rest = (k, ws) :: t := by
  induction rest with
  | nil => intro k vs; exact ⟨vs.reverse, [], rfl⟩
  | cons p rest ih =>
    obtain ⟨k2, v2⟩ := p
    intro k vs
    by_cases h : k2 = k
    · rw [runsAux, if_pos h]; exact ih k (v2 :: vs)
    · rw [runsAux, if_neg h]
      exact ⟨vs.reverse, runsAux k2 [v2] rest, rfl⟩

theorem runsAux_chain {κ ν : Type} [DecidableEq κ]
    (rest : List (κ × ν)) :
    ∀ (k : κ) (vs : List ν),
      List.Chain' (fun a b : κ × List ν => a.1 ≠ b.1)
        (runsAux k vs rest) := by
  induction rest with
  | nil => intro k vs; simp [runsAux]
  | cons p rest ih =>
    obtain ⟨k2, v2⟩ := p
    intro k vs
    by_cases h : k2 = k
    · rw [runsAux, if_pos h]; exact ih k (v2 :: vs)
    · rw [runsAux, if_neg h]
      obtain ⟨ws, t, ht⟩ := runsAux_head_key rest k2 ([v2] : List ν)
      refine List.chain'_cons'.mpr ⟨?_, ih k2 [v2]⟩
      intro b hb
      rw [ht] at hb
      simp only [List.head?_cons, Option.mem_def, Option.some.injEq] at hb
      subst hb
      simpa using fun hk => h hk.symm

theorem runs_chain {κ ν : Type} [DecidableEq κ] (pairs : List (κ × ν)) :
    List.Chain' (fun a b : κ × List ν => a.1 ≠ b.1) (runs pairs) := by
  cases pairs with
  | nil => simp [runs]
  | cons p rest =>
    obtain ⟨k, v⟩ := p
    exact runsAux_chain rest k [v]

/-! ## Helper lemmas about the script-step table -/

theorem lookupKey_scriptStepMappingAux (ks : List StepKey) :
    ∀ (c : Nat) (k : StepKey),
      lookupKey k (scriptStepMappingAux c ks)
        = (firstIdx k ks).map (fun j => c + j) := by
  induction ks with
  | nil => intro c k; rfl
  | cons b ks ih =>
    intro c k
    by_cases h : b = k
    · simp [scriptStepMappingAux, lookupKey, firstIdx, h]
    · simp only [scriptStepMappingAux, lookupKey, if_neg h, firstIdx,
        ih (c + 1) k, Option.map_map]
      cases firstIdx k ks with
      | none => rfl
      | some j =>
        simp only [Option.map_some', Function.comp_apply]
        congr 1
        omega

theorem length_scriptStepMappingAux (ks : List StepKey) :
    ∀ c : Nat, (scriptStepMappingAux c ks).length = ks.length := by
  induction ks with
  | nil => intro c; rfl
  | cons b ks ih => intro c; simp [scriptStepMappingAux, ih]

theorem lookupKey_scriptStepMapping (steps : List StepDesc) (k : StepKey) :
    lookupKey k (scriptStepMapping steps) = firstIdx k (phaseKeys steps) := by
  rw [scriptStepMapping, lookupKey_scriptStepMappingAux]
  cases firstIdx k (phaseKeys steps) with
  | none => rfl
  | some j => simp

theorem length_scriptStepMapping (steps : List StepDesc) :
    (scriptStepMapping steps).length = (phaseKeys steps).length :=
  length_scriptStepMappingAux (phaseKeys steps) 0

theorem firstIdx_lt_length {α : Type} [DecidableEq α] (a : α)
    (l : List α) : ∀ i : Nat, firstIdx a l = some i → i < l.length := by
  induction l with
  | nil => intro i h; simp [firstIdx] at h
  | cons b l ih =>
    intro i h
    by_cases hb : b = a
    · rw [firstIdx, if_pos hb] at h
      cases h
      simp
    · rw [firstIdx, if_neg hb] at h
      cases hj : firstIdx a l with
      | none => rw [hj] at h; simp at h
      | some j =>
        rw [hj] at h
        simp only [Option.map_some', Option.some.injEq] at h
        subst h
        have := ih j hj
        simp only [List.length_cons]
        omega

/-! ## Claim theorems -/

/-- C1: a combiner/reducer execution partitions its input into maximal
contiguous runs of equal key, in input order, and invokes the body hook
exactly once per run with the run's key and values: flattening the runs
restores the input, every run is non-empty, adjacent runs have distinct
keys, the phase output is the concatenation of the body's yields over
exactly this run list, and on `[(A,1),(A,2),(B,3),(A,4)]` (with `A = 0`,
`B = 1`) an echoing body is invoked exactly 3 times, with `(A,[1,2])`,
`(B,[3])`, `(A,[4])`. -/
theorem claim_C1_contiguous_runs (pairs : List (Nat × Nat)) :
    ((runs pairs).flatMap fun r => r.2.map fun v => (r.1, v)) = pairs
    ∧ (∀ r ∈ runs pairs, r.2 ≠ [])
    ∧ List.Chain' (fun a b : Nat × List Nat => a.1 ≠ b.1) (runs pairs)
    ∧ (∀ body : Nat → List Nat → Option (List (Nat × List Nat)),
        combineOrReducePairs ⟨some body, none, none⟩ pairs
          = ⟨(runs pairs).flatMap fun r => orEmpty (body r.1 r.2), none⟩)
    ∧ combineOrReducePairs
        (⟨some fun k vs => some [(k, vs)], none, none⟩ :
          RedHooks Nat Nat Nat (List Nat)) [(0, 1), (0, 2), (1, 3), (0, 4)]
        = ⟨[(0, [1, 2]), (1, [3]), (0, [4])], none⟩
    ∧ (runs [((0 : Nat), (1 : Nat)), (0, 2), (1, 3), (0, 4)]).length = 3 := by
  refine ⟨runs_flatten pairs, runs_values_ne_nil pairs, runs_chain pairs,
    ?_, by decide, by decide⟩
  intro body
  simp [combineOrReducePairs, runOptHook]

/-- Witness for C1 at a concrete input, discharging the run-membership
hypothesis. -/
theorem claim_C1_contiguous_runs_witness :
    ((0 : Nat), [(1 : Nat)]) ∈ runs [((0 : Nat), (1 : Nat))]
    ∧ (((0 : Nat), [(1 : Nat)]) : Nat × List Nat).2 ≠ [] :=
  ⟨by decide,
   (claim_C1_contiguous_runs [((0 : Nat), (1 : Nat))]).2.1
     ((0 : Nat), [(1 : Nat)]) (by decide)⟩

/-- C8 as stated is false: a combiner or reducer phase with only init
and final hooks (no body hook) does not yield init's output followed by
final's output — `_combine_or_reduce_pairs` fails (even on empty input)
because the body slot is `None`. -/
theorem claim_C8_counterexample :
    combineOrReducePairs
        (⟨none, some fun _ => some [((7 : Nat), (8 : Nat))],
          some fun _ => some [(9, 10)]⟩ : RedHooks Nat Nat Nat Nat)
        ([] : List (Nat × Nat))
      = ⟨[], some MRError.configurationError⟩
    ∧ combineOrReducePairs
        (⟨none, some fun _ => some [((7 : Nat), (8 : Nat))],
          some fun _ => some [(9, 10)]⟩ : RedHooks Nat Nat Nat Nat)
        ([] : List (Nat × Nat))
      ≠ ⟨[(7, 8), (9, 10)], none⟩ := by
  exact ⟨rfl, by decide⟩

/-- C8 (amended): for every *mapper* phase that supplies only an init
hook and a final hook (no body hook, no raw hook), execution on any
input sequence, including the empty one, yields exactly the init hook's
output pairs followed by the final hook's output pairs. -/
theorem claim_C8_init_final_only {κ ν κ₂ ν₂ : Type}
    (ini fin : Option (Unit → Option (List (κ₂ × ν₂))))
    (args : List String) (pairs : List (κ × ν)) :
    map_pairs (⟨none, none, ini, fin⟩ : MapHooks κ ν κ₂ ν₂) args pairs
      = ⟨runOptHook ini ++ runOptHook fin, none⟩ := by
  simp [map_pairs, applyMapBody]

/-- C9: a combiner/reducer execution whose step supplies no body hook
for that phase kind fails with ConfigurationError, whatever init/final
hooks are present and whatever the input, yielding nothing. -/
theorem claim_C9_no_body_hook {κ ν κ₂ ν₂ : Type} [DecidableEq κ]
    (ini fin : Option (Unit → Option (List (κ₂ × ν₂))))
    (pairs : List (κ × ν)) :
    combineOrReducePairs (⟨none, ini, fin⟩ : RedHooks κ ν κ₂ ν₂) pairs
      = ⟨[], some MRError.configurationError⟩ := rfl

/-- C10: in every phase execution, a hook that returns `None` instead of
an iterable of pairs is treated as yielding zero pairs: replacing every
`None` result of every hook by an empty yield changes nothing about the
execution's output or error. -/
theorem claim_C10_none_as_empty {κ ν κ₂ ν₂ : Type} [DecidableEq κ]
    (mh : MapHooks κ ν κ₂ ν₂) (rh : RedHooks κ ν κ₂ ν₂)
    (args : List String) (pairs : List (κ × ν)) :
    map_pairs (withNoneAsEmptyMap mh) args pairs = map_pairs mh args pairs
    ∧ combineOrReducePairs (withNoneAsEmptyRed rh) pairs
      = combineOrReducePairs rh pairs := by
  constructor
  · rw [map_pairs, map_pairs]
    cases hr : mh.raw with
    | none =>
      simp [withNoneAsEmptyMap, hr, runOptHook_withNoneAsEmpty]
      cases hb : mh.body with
      | none => simp [applyMapBody]
      | some f => simp [applyMapBody, orEmpty_some_orEmpty]
    | some f =>
      cases args with
      | nil => simp [withNoneAsEmptyMap, hr, runOptHook_withNoneAsEmpty]
      | cons a t =>
        cases t with
        | nil => simp [withNoneAsEmptyMap, hr, runOptHook_withNoneAsEmpty]
        | cons b t2 =>
          cases t2 with
          | nil =>
            simp [withNoneAsEmptyMap, hr, runOptHook_withNoneAsEmpty,
              orEmpty_some_orEmpty]
          | cons c t3 =>
            simp [withNoneAsEmptyMap, hr, runOptHook_withNoneAsEmpty]
  · rw [combineOrReducePairs, combineOrReducePairs]
    cases hb : rh.body with
    | none => simp [withNoneAsEmptyRed, hb]
    | some f =>
      simp [withNoneAsEmptyRed, hb, runOptHook_withNoneAsEmpty,
        orEmpty_some_orEmpty]

/-- C2: for every pipeline, a script mapper/reducer request resolves to
read role `input` iff its 0-based position among all script
mapper/reducer phases (pipeline order, mappers before reducers within a
step, combiners excluded) is 0, else `internal`, and to write role
`output` iff its position is the last, else `internal`; in particular a
1-step mapper+reducer script pipeline resolves to `(input, internal)` /
`(internal, output)`, and the 3-step all-script pipeline (mapper-only;
mapper+reducer; reducer-only) resolves mapper@0 → `(input, internal)`,
reducer@1 → `(internal, internal)`, reducer@2 → `(internal, output)`. -/
theorem claim_C2_role_positions :
    (∀ (steps : List StepDesc) (i : Nat) (t : StepType) (pos : Nat),
      (t = StepType.mapper ∨ t = StepType.reducer) →
      firstIdx (i, t) (phaseKeys steps) = some pos →
      pickProtocolInstances steps i t
        = Except.ok
            ((if pos = 0 then Proto.input else Proto.internal),
             (if pos = (phaseKeys steps).length - 1 then Proto.output
              else Proto.internal)))
    ∧ pickProtocolInstances
        [StepDesc.streaming (some PhaseType.script) none
          (some PhaseType.script)] 0 StepType.mapper
      = Except.ok (Proto.input, Proto.internal)
    ∧ pickProtocolInstances
        [StepDesc.streaming (some PhaseType.script) none
          (some PhaseType.script)] 0 StepType.reducer
      = Except.ok (Proto.internal, Proto.output)
    ∧ pickProtocolInstances
        [StepDesc.streaming (some PhaseType.script) none none,
         StepDesc.streaming (some PhaseType.script) (some PhaseType.script)
           (some PhaseType.script),
         StepDesc.streaming none none (some PhaseType.script)]
        0 StepType.mapper
      = Except.ok (Proto.input, Proto.internal)
    ∧ pickProtocolInstances
        [StepDesc.streaming (some PhaseType.script) none none,
         StepDesc.streaming (some PhaseType.script) (some PhaseType.script)
           (some PhaseType.script),
         StepDesc.streaming none none (some PhaseType.script)]
        1 StepType.reducer
      = Except.ok (Proto.internal, Proto.internal)
    ∧ pickProtocolInstances
        [StepDesc.streaming (some PhaseType.script) none none,
         StepDesc.streaming (some PhaseType.script) (some PhaseType.script)
           (some PhaseType.script),
         StepDesc.streaming none none (some PhaseType.script)]
        2 StepType.reducer
      = Except.ok (Proto.internal, Proto.output) := by
  refine ⟨?_, rfl, rfl, rfl, rfl, rfl⟩
  intro steps i t pos ht hpos
  have hlook : lookupKey (i, t) (scriptStepMapping steps) = some pos := by
    rw [lookupKey_scriptStepMapping]; exact hpos
  have hlen := length_scriptStepMapping steps
  rcases ht with ht | ht <;> subst ht <;>
    simp [pickProtocolInstances, hlook, hlen]

/-- Witness for C2: the general role formula applied to the 3-step
pipeline's reducer@1, which sits at position 2 of 4. -/
theorem claim_C2_role_positions_witness :
    pickProtocolInstances
        [StepDesc.streaming (some PhaseType.script) none none,
         StepDesc.streaming (some PhaseType.script) (some PhaseType.script)
           (some PhaseType.script),
         StepDesc.streaming none none (some PhaseType.script)]
        1 StepType.reducer
      = Except.ok (Proto.internal, Proto.internal) := by
  have h := claim_C2_role_positions.1
    [StepDesc.streaming (some PhaseType.script) none none,
     StepDesc.streaming (some PhaseType.script) (some PhaseType.script)
       (some PhaseType.script),
     StepDesc.streaming none none (some PhaseType.script)]
    1 StepType.reducer 2 (Or.inr rfl) (by decide)
  simpa using h

/-- C3: resolving protocols for a combiner yields a read and a write
role both equal to its step's mapper's resolved write role when that
mapper is a script phase, and both equal to the raw pass-through
protocol when the step's mapper is not a script phase (absent from the
script-step table). -/
theorem claim_C3_combiner_roles :
    (∀ (steps : List StepDesc) (i : Nat) (r w : Proto),
      pickProtocolInstances steps i StepType.mapper = Except.ok (r, w) →
      pickProtocolInstances steps i StepType.combiner = Except.ok (w, w))
    ∧ (∀ (steps : List StepDesc) (i : Nat),
      lookupKey (i, StepType.mapper) (scriptStepMapping steps) = none →
      pickProtocolInstances steps i StepType.combiner
        = Except.ok (Proto.rawValue, Proto.rawValue)) := by
  constructor
  · intro steps i r w hok
    cases hl : lookupKey (i, StepType.mapper) (scriptStepMapping steps) with
    | none => simp [pickProtocolInstances, hl] at hok
    | some pos =>
      have hfi : firstIdx (i, StepType.mapper) (phaseKeys steps)
          = some pos := by
        rw [← lookupKey_scriptStepMapping]; exact hl
      have hlt : pos < (phaseKeys steps).length :=
        firstIdx_lt_length _ _ pos hfi
      have hlen := length_scriptStepMapping steps
      simp only [pickProtocolInstances, hl, Except.ok.injEq,
        Prod.mk.injEq] at hok
      obtain ⟨-, hw⟩ := hok
      simp only [pickProtocolInstances, mapperOutputProtocol, hl,
        Except.ok.injEq, Prod.mk.injEq]
      subst hw
      by_cases hp : pos = (scriptStepMapping steps).length - 1
      · have : (scriptStepMapping steps).length - 1 ≤ pos := le_of_eq hp.symm
        simp [hp, this]
      · have : ¬ (scriptStepMapping steps).length - 1 ≤ pos := by
          rw [hlen] at hp ⊢; omega
        simp [hp, this]
  · intro steps i hl
    simp [pickProtocolInstances, mapperOutputProtocol, hl]

/-- Witness for C3 at a concrete pipeline: the combiner of a step whose
mapper is a script phase inherits the mapper's write role, and the
combiner of a step whose mapper is an external command degenerates to
the raw pass-through. -/
theorem claim_C3_combiner_roles_witness :
    pickProtocolInstances
        [StepDesc.streaming (some PhaseType.script) (some PhaseType.script)
          none] 0 StepType.combiner
      = Except.ok (Proto.output, Proto.output)
    ∧ pickProtocolInstances
        [StepDesc.streaming (some PhaseType.command) (some PhaseType.script)
          (some PhaseType.script)] 0 StepType.combiner
      = Except.ok (Proto.rawValue, Proto.rawValue) :=
  ⟨claim_C3_combiner_roles.1
      [StepDesc.streaming (some PhaseType.script) (some PhaseType.script)
        none] 0 Proto.input Proto.output rfl,
   claim_C3_combiner_roles.2
      [StepDesc.streaming (some PhaseType.command) (some PhaseType.script)
        (some PhaseType.script)] 0 rfl⟩

/-- C4: a mapper/reducer protocol-resolution request fails with
ProtocolResolutionError exactly when the request is absent from the
script-step table (e.g. the phase is an external command or absent), and
succeeds exactly when it is present. -/
theorem claim_C4_non_script_resolution (steps : List StepDesc) (i : Nat)
    (t : StepType) (ht : t = StepType.mapper ∨ t = StepType.reducer) :
    (lookupKey (i, t) (scriptStepMapping steps) = none →
      pickProtocolInstances steps i t
        = Except.error MRError.protocolResolutionError)
    ∧ (∀ e, pickProtocolInstances steps i t = Except.error e →
        lookupKey (i, t) (scriptStepMapping steps) = none
        ∧ e = MRError.protocolResolutionError)
    ∧ (∀ pos, lookupKey (i, t) (scriptStepMapping steps) = some pos →
        ∃ rw, pickProtocolInstances steps i t = Except.ok rw) := by
  refine ⟨?_, ?_, ?_⟩
  · intro hl
    rcases ht with ht | ht <;> subst ht <;> simp [pickProtocolInstances, hl]
  · intro e he
    cases hl : lookupKey (i, t) (scriptStepMapping steps) with
    | none =>
      rcases ht with ht | ht <;> subst ht <;>
        simp [pickProtocolInstances, hl] at he <;> exact ⟨rfl, he.symm⟩
    | some pos =>
      rcases ht with ht | ht <;> subst ht <;>
        simp [pickProtocolInstances, hl] at he
  · intro pos hl
    rcases ht with ht | ht <;> subst ht <;>
      exact ⟨((if pos = 0 then Proto.input else Proto.internal),
              (if pos = (scriptStepMapping steps).length - 1 then
                Proto.output else Proto.internal)),
        by simp [pickProtocolInstances, hl]⟩

/-- Witness for C4: a mapper implemented as an external command fails
resolution; the script reducer of the same step succeeds. -/
theorem claim_C4_non_script_resolution_witness :
    pickProtocolInstances
        [StepDesc.streaming (some PhaseType.command) none
          (some PhaseType.script)] 0 StepType.mapper
      = Except.error MRError.protocolResolutionError
    ∧ ∃ rw, pickProtocolInstances
        [StepDesc.streaming (some PhaseType.command) none
          (some PhaseType.script)] 0 StepType.reducer
      = Except.ok rw :=
  ⟨(claim_C4_non_script_resolution
      [StepDesc.streaming (some PhaseType.command) none
        (some PhaseType.script)] 0 StepType.mapper (Or.inl rfl)).1 rfl,
   (claim_C4_non_script_resolution
      [StepDesc.streaming (some PhaseType.command) none
        (some PhaseType.script)] 0 StepType.reducer (Or.inr rfl)).2.2
     0 rfl⟩

/-- C5: a raw-mapper phase or a distributed (spark) phase invoked with a
number of positional arguments other than exactly 2 fails with
ArgumentArityError; with exactly 2, both arguments are passed through to
the hook unmodified and in order. -/
theorem claim_C5_two_positional_args {κ ν κ₂ ν₂ α : Type}
    (rawHook : String → String → Option (List (κ₂ × ν₂)))
    (ini fin : Option (Unit → Option (List (κ₂ × ν₂))))
    (spark : String → String → α)
    (args : List String) (pairs : List (κ × ν)) :
    (args.length ≠ 2 →
      (map_pairs (⟨none, some rawHook, ini, fin⟩ : MapHooks κ ν κ₂ ν₂)
          args pairs).err = some MRError.argumentArityError
      ∧ run_spark spark args = Except.error MRError.argumentArityError)
    ∧ (∀ a b : String,
        map_pairs (⟨none, some rawHook, ini, fin⟩ : MapHooks κ ν κ₂ ν₂)
            [a, b] pairs
          = ⟨runOptHook ini ++ orEmpty (rawHook a b) ++ runOptHook fin,
             none⟩
        ∧ run_spark spark [a, b] = Except.ok (spark a b)) := by
  constructor
  · intro hlen
    match args, hlen with
    | [], _ => exact ⟨rfl, rfl⟩
    | [a], _ => exact ⟨rfl, rfl⟩
    | [a, b], h => exact absurd rfl h
    | a :: b :: c :: t, _ => exact ⟨rfl, rfl⟩
  · intro a b
    exact ⟨rfl, rfl⟩

/-- Witness for C5: one positional argument fails both phases; with the
two arguments `"in", "uri"` the raw hook and the spark hook receive them
in order. -/
theorem claim_C5_two_positional_args_witness :
    ((map_pairs
        (⟨none, some fun p u => some [(p.length, u.length)], none, none⟩ :
          MapHooks Nat Nat Nat Nat) ["x"] []).err
      = some MRError.argumentArityError
    ∧ run_spark (fun a b : String => a ++ b) ["x"]
      = Except.error MRError.argumentArityError)
    ∧ (map_pairs
        (⟨none, some fun p u => some [(p.length, u.length)], none, none⟩ :
          MapHooks Nat Nat Nat Nat) ["in", "uri"] []
        = ⟨[(2, 3)], none⟩
    ∧ run_spark (fun a b : String => a ++ b) ["in", "uri"]
      = Except.ok "inuri") :=
  ⟨(claim_C5_two_positional_args
      (fun p u => some [(p.length, u.length)]) none none
      (fun a b : String => a ++ b) ["x"] []).1 (by decide),
   (claim_C5_two_positional_args
      (fun p u => some [(p.length, u.length)]) none none
      (fun a b : String => a ++ b) ["in", "uri"] []).2 "in" "uri"⟩

/-- C6: the counter operation writes one line
`reporter:counter:<group>,<name>,<amount>` in which every comma inside
group and name has been replaced by a semicolon (the replacement keeps
length and produces no comma); in particular group `"a,b"`, name
`"c,d"`, amount 5 produce the literal line
`reporter:counter:a;b,c;d,5`. -/
theorem claim_C6_counter_line (g n : List Char) (a : Int) :
    increment_counter g n a
      = "reporter:counter:".toList ++ replaceCommas g ++ [','] ++
          replaceCommas n ++ [','] ++ (toString a).toList ++ ['\n']
    ∧ (∀ c ∈ replaceCommas g, c ≠ ',')
    ∧ (∀ c ∈ replaceCommas n, c ≠ ',')
    ∧ (replaceCommas g).length = g.length
    ∧ increment_counter "a,b".toList "c,d".toList 5
        = "reporter:counter:a;b,c;d,5\n".toList := by
  refine ⟨rfl, ?_, ?_, by simp [replaceCommas], by decide⟩
  all_goals
    intro c hc
    simp only [replaceCommas, List.mem_map] at hc
    obtain ⟨d, -, hd⟩ := hc
    subst hd
    by_cases h : d = ',' <;> simp [h]

/-- Witness for C6, discharging the membership hypotheses on the
concrete group `"a,b"`: its replaced first character `'a'` is not a
comma. -/
theorem claim_C6_counter_line_witness :
    'a' ∈ replaceCommas "a,b".toList ∧ 'a' ≠ ',' :=
  ⟨by decide,
   (claim_C6_counter_line "a,b".toList "c,d".toList 5).2.1 'a' (by decide)⟩

/-- C7: providing the distributed (spark) hook together with any
mapper/combiner/reducer hook makes step-pipeline synthesis (`steps()`)
fail with ConfigurationError, and therefore every step lookup — the gate
each phase execution passes through first — fails with the same error
before any phase runs. -/
theorem claim_C7_spark_mixing (p : ProvidedHooks)
    (hs : p.spark = true) (hm : hasStreamingHook p = true) :
    buildSteps p = Except.error MRError.configurationError
    ∧ ∀ stepNum : Nat,
        getStep p stepNum = Except.error MRError.configurationError := by
  refine ⟨by simp [buildSteps, hs, hm], ?_⟩
  intro stepNum
  simp [getStep, buildSteps, hs, hm]

/-- Witness for C7: a job providing exactly the spark hook and the
mapper hook. -/
theorem claim_C7_spark_mixing_witness :
    buildSteps
        ⟨true, false, false, false, false, false, false, false, false,
         false, false, false, false, false, false, false, true⟩
      = Except.error MRError.configurationError
    ∧ getStep
        ⟨true, false, false, false, false, false, false, false, false,
         false, false, false, false, false, false, false, true⟩ 0
      = Except.error MRError.configurationError :=
  ⟨(claim_C7_spark_mixing
      ⟨true, false, false, false, false, false, false, false, false,
       false, false, false, false, false, false, false, true⟩
      rfl rfl).1,
   (claim_C7_spark_mixing
      ⟨true, false, false, false, false, false, false, false, false,
       false, false, false, false, false, false, false, true⟩
      rfl rfl).2 0⟩

end MrJobSpec
